import Mathlib

/-!
Shallow embedding of `src/radar.py` ("Radar do Caçador"): a small service
that loads Mercado Livre product URLs, fetches item details from an upstream
API, deterministically selects three products per daily shift, and renders a
promotional text block.

Modelling conventions: Python floats are modelled as rationals (`ℚ`), Python
`int` as `ℤ`, and the calendar date as its ordinal day number
(`date.today().toordinal()`, a natural `hoje`).  I/O is factored out: the
upstream HTTP API is a parameter `resposta : String → RespostaItem` and the
content of `urls.txt` is a parameter `urls : List String`.  Exceptions
(`HTTPException`, `ValueError`) are modelled with `Except`.
-/

/-- An error raised via FastAPI's `HTTPException`: status code and detail text. -/
structure HTTPError where
  status : ℕ
  detail : String
deriving DecidableEq

/-- The `Produto` dataclass of `radar.py`: display name, current price, outbound
link, sales count (`sold_quantity`) and the extracted item id. -/
structure Produto where
  nome : String
  preco : ℚ
  link : String
  vendas : ℤ
  id_item : String
deriving DecidableEq

/-- `FATIAS_TURNO`: the slice indices assigned to each shift
(`manha = range(0,3)`, `tarde = range(3,6)`, `noite = range(6,9)`). -/
def FATIAS_TURNO : List (String × List ℕ) :=
  [("manha", [0, 1, 2]), ("tarde", [3, 4, 5]), ("noite", [6, 7, 8])]

/-- Worker for the scan of `re.findall(r"(MLB\d+)", url)`: at each position,
greedily match the literal `MLB` followed by a maximal non-empty run of
digits; matches are non-overlapping and scanning resumes after each match.
The fuel argument only makes the recursion structural; every call consumes at
least one character, so fuel equal to the input length never runs out. -/
def findall_mlb_aux : ℕ → List Char → List String
  | 0, _ => []
  | _ + 1, [] => []
  | fuel + 1, 'M' :: 'L' :: 'B' :: resto =>
    let ds := resto.takeWhile Char.isDigit
    if ds.isEmpty then findall_mlb_aux fuel ('L' :: 'B' :: resto)
    else ('M' :: 'L' :: 'B' :: ds).asString :: findall_mlb_aux fuel (resto.dropWhile Char.isDigit)
  | fuel + 1, _ :: resto => findall_mlb_aux fuel resto

/-- The list of matches of `re.findall(r"(MLB\d+)", ·)` over a character list. -/
def findall_mlb (l : List Char) : List String := findall_mlb_aux l.length l

/-- Python's `max(ms, key=len)` over a non-empty list: fold that replaces the
current maximum only on a strictly longer candidate, so the first of the
longest matches is kept. -/
def maior_por_tamanho (x : String) (xs : List String) : String :=
  xs.foldl (fun acc y => if acc.length < y.length then y else acc) x

/-- `extrair_id_item`: collect all `MLB\d+` matches in the URL; raise a
`ValueError` (modelled as `Except.error` with the message) when there is
none, otherwise return the longest match (`max(matches, key=len)`). -/
def extrair_id_item (url : String) : Except String String :=
  match findall_mlb url.data with
  | [] => .error ("Não foi possível extrair ID MLB da URL: " ++ url)
  | m :: ms => .ok (maior_por_tamanho m ms)

/-- Upstream response for one item id: HTTP status, raw body text (`resp.text`)
and the JSON fields read by `buscar_detalhes_produto`, each optional. -/
structure RespostaItem where
  status : ℕ
  texto : String
  title : Option String
  price : Option ℚ
  permalink : Option String
  sold_quantity : Option ℤ

/-- Python `a or b` for an optional string: `None` and `""` are falsy, so both
fall back to the default. -/
def ou_texto (o : Option String) (padrao : String) : String :=
  match o with
  | none => padrao
  | some s => if s = "" then padrao else s

/-- `buscar_detalhes_produto`: on a non-200 status raise `HTTPException(502)`
with the body text in the detail; otherwise build a `Produto` with the
defaulting rules `title or f"Produto {item_id}"`, `price or 0`,
`permalink or ""`, `sold_quantity or 0`. -/
def buscar_detalhes_produto (resposta : String → RespostaItem) (item_id : String) :
    Except HTTPError Produto :=
  let resp := resposta item_id
  if resp.status ≠ 200 then
    .error ⟨502, "Erro ao buscar item " ++ item_id ++ " no Mercado Livre: " ++ resp.texto⟩
  else
    .ok { nome := ou_texto resp.title ("Produto " ++ item_id)
          preco := resp.price.getD 0
          link := ou_texto resp.permalink ""
          vendas := resp.sold_quantity.getD 0
          id_item := item_id }

/-- `selecionar_produtos_para_turno`: reject an unknown shift with
`HTTPException(400)`; otherwise rotate the list by `hoje % len(produtos)`
(0 for an empty list) and keep the in-range positions of the shift's slice. -/
def selecionar_produtos_para_turno (produtos : List Produto) (turno : String) (hoje : ℕ) :
    Except HTTPError (List Produto) :=
  match FATIAS_TURNO.lookup turno with
  | none => .error ⟨400, "Turno inválido: " ++ turno⟩
  | some faixa =>
    let deslocamento := if produtos.isEmpty then 0 else hoje % produtos.length
    let rotacionados := produtos.drop deslocamento ++ produtos.take deslocamento
    .ok (faixa.filterMap (fun idx => rotacionados.get? idx))

/-- The whole number of cents displayed by `f"{valor:,.2f}"` for the exact
value `v`: the nearest integer to `100 * v`, ties to the even integer, which
is how Python rounds a float when formatting it with two decimals.  Computed
on numerator and denominator so that it evaluates by kernel reduction. -/
def centavos (v : ℚ) : ℤ :=
  let n : ℤ := 100 * v.num
  let d : ℤ := (v.den : ℤ)
  let q := Int.fdiv n d
  let r := n - q * d
  if 2 * r < d then q
  else if d < 2 * r then q + 1
  else if q % 2 = 0 then q else q + 1

/-- Group a reversed digit list in blocks of three with separator `sep`,
the way Python's `,` format option groups the integer part. -/
def agrupar_rev (sep : Char) : List Char → List Char
  | [] => []
  | [d1] => [d1]
  | [d1, d2] => [d1, d2]
  | [d1, d2, d3] => [d1, d2, d3]
  | d1 :: d2 :: d3 :: d4 :: resto => d1 :: d2 :: d3 :: sep :: agrupar_rev sep (d4 :: resto)

/-- Thousands grouping of a digit list, every three digits from the right. -/
def agrupar_milhares (sep : Char) (ds : List Char) : List Char :=
  (agrupar_rev sep ds.reverse).reverse

/-- `f"{valor:,.2f}"` for a non-negative number of cents `c`: comma-grouped
integer part (`str(c / 100)` via `Nat.toDigits`), a dot, and exactly two
fractional digits. -/
def formato_us_f2 (c : ℕ) : List Char :=
  agrupar_milhares ',' (Nat.toDigits 10 (c / 100)) ++
    ['.', Nat.digitChar (c % 100 / 10), Nat.digitChar (c % 10)]

/-- `f"{valor:,.2f}"` as a character list, with a leading minus sign for a
negative value. -/
def formato_f2 (v : ℚ) : List Char :=
  let c := centavos v
  if c < 0 then '-' :: formato_us_f2 (-c).toNat else formato_us_f2 c.toNat

/-- Python's `str.replace` for a single-character pattern and single-character
replacement: replace every occurrence. -/
def replace_um (a b : Char) (l : List Char) : List Char :=
  l.map fun c => if c = a then b else c

/-- The separator swap of `formatar_preco_brl`:
`s.replace(",", "X").replace(".", ",").replace("X", ".")`. -/
def trocar_separadores (l : List Char) : List Char :=
  replace_um 'X' '.' (replace_um '.' ',' (replace_um ',' 'X' l))

/-- `formatar_preco_brl`: format with two decimals and US separators, swap the
separators through the placeholder `X`, and prefix `R$ `. -/
def formatar_preco_brl (valor : ℚ) : String :=
  "R$ " ++ (trocar_separadores (formato_f2 valor)).asString

/-- The Brazilian-convention rendering described by the spec, written
directly: `R$ `, a sign for negative values, the integer part grouped in
threes by dots, a comma, and exactly two fractional digits.  This is the
spec-side definition the implementation is compared against. -/
def preco_brl_especificado (v : ℚ) : String :=
  let c := centavos v
  let n := c.natAbs
  "R$ " ++ (if c < 0 then "-" else "") ++
    (agrupar_milhares '.' (Nat.toDigits 10 (n / 100))).asString ++ "," ++
    String.mk [Nat.digitChar (n % 100 / 10), Nat.digitChar (n % 10)]

/-- Python `"\n".join(linhas)`. -/
def juntar_linhas : List String → String
  | [] => ""
  | [x] => x
  | x :: xs => x ++ "\n" ++ juntar_linhas xs

/-- The `titulo_mapa` dictionary of `montar_texto_pacote`. -/
def titulo_mapa : List (String × String) :=
  [("manha", "Pacote das 6h"), ("tarde", "Pacote das 12h"), ("noite", "Pacote das 19h")]

/-- `montar_texto_pacote`: a title line keyed by the shift name (with the
generic `Pacote — {turno}` fallback), then either the two-line "nothing
found" message or a six-line block per product, then the closing two-line
disclaimer; all joined with newlines. -/
def montar_texto_pacote (turno : String) (produtos : List Produto) : String :=
  let titulo := (titulo_mapa.lookup turno).getD ("Pacote — " ++ turno)
  let corpo : List String :=
    if produtos.isEmpty then
      ["Hoje não encontrei produtos bons o suficiente para esse horário. 😅",
       "Amanhã o radar tenta de novo.\n"]
    else
      produtos.flatMap fun p =>
        [p.nome, "", formatar_preco_brl p.preco, "Cupom: —", "Link: " ++ p.link, ""]
  juntar_linhas
    (["⚡ " ++ titulo ++ " — Caçador de Ofertas\n"] ++ corpo ++
      ["💬 Eu caço e você economiza.", "⚠️ Preços e estoque podem mudar a qualquer momento.\n"])

/-- The body of the per-URL `try` block in `carregar_produtos`: extract the
item id and fetch the details; any failure in either step yields `none` (the
`except: continue`). -/
def processar_url (resposta : String → RespostaItem) (url : String) : Option Produto :=
  match extrair_id_item url with
  | .error _ => none
  | .ok item_id =>
    match buscar_detalhes_produto resposta item_id with
    | .error _ => none
    | .ok p => some p

/-- The collection loop of `carregar_produtos`: keep the products of the URLs
whose processing succeeded, in order, skipping the failures. -/
def coletar_produtos (resposta : String → RespostaItem) : List String → List Produto
  | [] => []
  | url :: resto =>
    match processar_url resposta url with
    | some p => p :: coletar_produtos resposta resto
    | none => coletar_produtos resposta resto

/-- Stable insertion into a list already sorted by sales descending: the new
product goes in front of the first product with at most as many sales. -/
def inserir_por_vendas (p : Produto) : List Produto → List Produto
  | [] => [p]
  | q :: resto =>
    if q.vendas ≤ p.vendas then p :: q :: resto else q :: inserir_por_vendas p resto

/-- `produtos.sort(key=lambda p: p.vendas, reverse=True)`: Python's sort is
stable, and a stable insertion sort by sales descending produces the same
ordering. -/
def ordenar_por_vendas (ps : List Produto) : List Produto :=
  ps.foldr inserir_por_vendas []

/-- `carregar_produtos` with the file and network factored out: process every
URL, skip per-item failures, and sort the successes by sales descending. -/
def carregar_produtos (resposta : String → RespostaItem) (urls : List String) : List Produto :=
  ordenar_por_vendas (coletar_produtos resposta urls)

/-- The early-return text of `gerar_pacote` when no products were loaded. -/
def texto_sem_produtos (turno : String) : String :=
  "⚡ Pacote — " ++ turno ++ " — Caçador de Ofertas\n\n" ++
    "Não há produtos cadastrados em urls.txt no momento.\n" ++
    "Adicione algumas URLs de produtos do Mercado Livre e tente novamente.\n"

/-- `gerar_pacote`: load the products; if none were loaded return the
placeholder text, otherwise select the shift's products and render them. -/
def gerar_pacote (resposta : String → RespostaItem) (urls : List String)
    (turno : String) (hoje : ℕ) : Except HTTPError String :=
  let produtos := carregar_produtos resposta urls
  if produtos.isEmpty then .ok (texto_sem_produtos turno)
  else
    match selecionar_produtos_para_turno produtos turno hoje with
    | .error e => .error e
    | .ok selecionados => .ok (montar_texto_pacote turno selecionados)

/-- The `/pacote/{turno}` route handler `obter_pacote`: lowercase the path
parameter and delegate to `gerar_pacote`. -/
def obter_pacote (resposta : String → RespostaItem) (urls : List String)
    (turno : String) (hoje : ℕ) : Except HTTPError String :=
  gerar_pacote resposta urls turno.toLower hoje

example : selecionar_produtos_para_turno [] "manha" 7 = .ok [] := by rfl
example : selecionar_produtos_para_turno [] "x" 7 = .error ⟨400, "Turno inválido: x"⟩ := by rfl
example : findall_mlb "https://x/MLB123z/MLB4567".data = ["MLB123", "MLB4567"] := by decide
example : extrair_id_item "https://x/MLB123z/MLB4567" = .ok "MLB4567" := by rfl
example : formatar_preco_brl (Rat.divInt 2469 2) = "R$ 1.234,50" := by decide
example : formatar_preco_brl (Rat.divInt 999 10) = "R$ 99,90" := by decide
example : preco_brl_especificado (Rat.divInt 2469 2) = "R$ 1.234,50" := by decide
example : formatar_preco_brl 1234567 = "R$ 1.234.567,00" := by decide

/-! Helper lemmas. -/

lemma lookup_manha : FATIAS_TURNO.lookup "manha" = some [0, 1, 2] := by decide

lemma lookup_tarde : FATIAS_TURNO.lookup "tarde" = some [3, 4, 5] := by decide

lemma lookup_noite : FATIAS_TURNO.lookup "noite" = some [6, 7, 8] := by decide

lemma lookup_nenhum (turno : String) (h1 : turno ≠ "manha") (h2 : turno ≠ "tarde")
    (h3 : turno ≠ "noite") : FATIAS_TURNO.lookup turno = none := by
  have e1 : (turno == "manha") = false := beq_eq_false_iff_ne.mpr h1
  have e2 : (turno == "tarde") = false := beq_eq_false_iff_ne.mpr h2
  have e3 : (turno == "noite") = false := beq_eq_false_iff_ne.mpr h3
  simp [FATIAS_TURNO, List.lookup, e1, e2, e3]

/-- Every line of a joined list is an infix of the joined string. -/
lemma mem_infix_juntar : ∀ {l : List String} {a : String}, a ∈ l →
    a.data <:+: (juntar_linhas l).data
  | [x], a, h => by
    rcases List.mem_singleton.mp h with rfl
    exact List.infix_refl _
  | x :: y :: ys, a, h => by
    rcases List.mem_cons.mp h with rfl | h'
    · show a.data <:+: (a ++ "\n" ++ juntar_linhas (y :: ys)).data
      rw [String.data_append, String.data_append]
      exact ((a.data.prefix_append _).trans (List.prefix_append _ _)).isInfix
    · have ih := mem_infix_juntar h'
      show a.data <:+: (x ++ "\n" ++ juntar_linhas (y :: ys)).data
      rw [String.data_append]
      exact ih.trans (List.suffix_append _ _).isInfix

/-- The slice loop of the selector: keeping the in-range positions among three
consecutive indices is taking three elements after dropping the offset. -/
lemma filterMap_fatia : ∀ (s : ℕ) (l : List Produto),
    List.filterMap (fun idx => l.get? idx) [s, s + 1, s + 2] = (l.drop s).take 3
  | 0, [] => rfl
  | 0, [_] => rfl
  | 0, [_, _] => rfl
  | 0, _ :: _ :: _ :: _ => rfl
  | s + 1, [] => by simp [List.filterMap_cons]
  | s + 1, a :: t => by
    have ih := filterMap_fatia s t
    simpa [List.filterMap_cons] using ih

/-- Unfolding of the selector on a recognized shift. -/
lemma selecionar_eq_ok (produtos : List Produto) (turno : String) (hoje : ℕ) (faixa : List ℕ)
    (h : FATIAS_TURNO.lookup turno = some faixa) :
    selecionar_produtos_para_turno produtos turno hoje =
      .ok (faixa.filterMap (fun idx =>
        (produtos.drop (if produtos.isEmpty then 0 else hoje % produtos.length) ++
          produtos.take (if produtos.isEmpty then 0 else hoje % produtos.length)).get? idx)) := by
  unfold selecionar_produtos_para_turno
  rw [h]

/-- Unfolding of the selector on an unrecognized shift. -/
lemma selecionar_eq_erro (produtos : List Produto) (turno : String) (hoje : ℕ)
    (h : FATIAS_TURNO.lookup turno = none) :
    selecionar_produtos_para_turno produtos turno hoje =
      .error ⟨400, "Turno inválido: " ++ turno⟩ := by
  unfold selecionar_produtos_para_turno
  rw [h]

/-- C1: for each recognized shift name the selector succeeds and returns at
most three products; the result is a function of the candidate list, the
shift name and the calendar date alone, so two calls with the same candidate
list and the same date return the same selection. -/
theorem selecionar_no_maximo_tres (produtos : List Produto) (turno : String) (hoje : ℕ)
    (h : turno ∈ ["manha", "tarde", "noite"]) :
    (∃ sel, selecionar_produtos_para_turno produtos turno hoje = .ok sel ∧ sel.length ≤ 3) ∧
      selecionar_produtos_para_turno produtos turno hoje =
        selecionar_produtos_para_turno produtos turno hoje := by
  refine ⟨?_, rfl⟩
  have h' : turno = "manha" ∨ turno = "tarde" ∨ turno = "noite" := by simpa using h
  rcases h' with rfl | rfl | rfl
  · rw [selecionar_eq_ok produtos "manha" hoje [0, 1, 2] lookup_manha]
    exact ⟨_, rfl, by simpa using List.length_filterMap_le (fun idx => _) [0, 1, 2]⟩
  · rw [selecionar_eq_ok produtos "tarde" hoje [3, 4, 5] lookup_tarde]
    exact ⟨_, rfl, by simpa using List.length_filterMap_le (fun idx => _) [3, 4, 5]⟩
  · rw [selecionar_eq_ok produtos "noite" hoje [6, 7, 8] lookup_noite]
    exact ⟨_, rfl, by simpa using List.length_filterMap_le (fun idx => _) [6, 7, 8]⟩

/-- Closed instance of `selecionar_no_maximo_tres` at a concrete input. -/
theorem selecionar_no_maximo_tres_aplicado :
    (∃ sel, selecionar_produtos_para_turno
        [⟨"A", 10, "la", 7, "MLB1"⟩, ⟨"B", 20, "lb", 4, "MLB2"⟩] "manha" 739201 = .ok sel ∧
        sel.length ≤ 3) ∧
      selecionar_produtos_para_turno
          [⟨"A", 10, "la", 7, "MLB1"⟩, ⟨"B", 20, "lb", 4, "MLB2"⟩] "manha" 739201 =
        selecionar_produtos_para_turno
          [⟨"A", 10, "la", 7, "MLB1"⟩, ⟨"B", 20, "lb", 4, "MLB2"⟩] "manha" 739201 :=
  selecionar_no_maximo_tres _ "manha" 739201 (by decide)

/-- C3: for an empty candidate list the selector returns the empty selection
for every recognized shift without raising, and rendering an empty item list
produces the distinct "nothing found" message rather than an empty body. -/
theorem selecionar_vazio_mensagem (turno : String) (hoje : ℕ)
    (h : turno ∈ ["manha", "tarde", "noite"]) :
    selecionar_produtos_para_turno [] turno hoje = .ok [] ∧
      ("Hoje não encontrei produtos bons o suficiente para esse horário. 😅").data <:+:
        (montar_texto_pacote turno []).data ∧
      montar_texto_pacote turno [] ≠ "" := by
  have hinf : ("Hoje não encontrei produtos bons o suficiente para esse horário. 😅").data <:+:
      (montar_texto_pacote turno []).data := by
    apply mem_infix_juntar
    simp [montar_texto_pacote]
  refine ⟨?_, hinf, ?_⟩
  · have h' : turno = "manha" ∨ turno = "tarde" ∨ turno = "noite" := by simpa using h
    rcases h' with rfl | rfl | rfl <;> rfl
  · intro he
    have hlen := hinf.length_le
    rw [he] at hlen
    exact absurd hlen (by decide)

/-- Closed instance of `selecionar_vazio_mensagem` at a concrete input. -/
theorem selecionar_vazio_mensagem_aplicado :
    selecionar_produtos_para_turno [] "tarde" 738000 = .ok [] ∧
      ("Hoje não encontrei produtos bons o suficiente para esse horário. 😅").data <:+:
        (montar_texto_pacote "tarde" []).data ∧
      montar_texto_pacote "tarde" [] ≠ "" :=
  selecionar_vazio_mensagem "tarde" 738000 (by decide)

/-- C10: when the loaded product list is empty, `gerar_pacote` answers every
shift string — unrecognized names included — with the "no products
registered" placeholder text, never with the `Turno inválido` error, because
the emptiness early return precedes shift validation. -/
theorem pacote_vazio_ignora_turno (resposta : String → RespostaItem) (urls : List String)
    (turno : String) (hoje : ℕ) (h : carregar_produtos resposta urls = []) :
    gerar_pacote resposta urls turno hoje = .ok (texto_sem_produtos turno) := by
  simp [gerar_pacote, h]

/-- Closed instance of `pacote_vazio_ignora_turno` at a concrete input with an
unrecognized shift name. -/
theorem pacote_vazio_ignora_turno_aplicado :
    carregar_produtos (fun _ => ⟨404, "", none, none, none, none⟩) [] = [] ∧
      gerar_pacote (fun _ => ⟨404, "", none, none, none, none⟩) [] "xyz" 5 =
        .ok (texto_sem_produtos "xyz") :=
  ⟨rfl, pacote_vazio_ignora_turno _ _ "xyz" 5 rfl⟩

/-- C4 counterexample: the shift name "zzz" is not recognized, yet with an
empty URL list the request is answered with the normal placeholder text, not
with an error: `gerar_pacote` returns before validating the shift. -/
theorem turno_invalido_sem_erro_contra :
    ("zzz" ∉ ["manha", "tarde", "noite"]) ∧
      gerar_pacote (fun _ => ⟨500, "erro interno", none, none, none, none⟩) [] "zzz" 0 =
        .ok (texto_sem_produtos "zzz") :=
  ⟨by decide, rfl⟩

/-- C4 (amended): provided at least one product was loaded, an unrecognized
shift name makes the request fail with the 400 `Turno inválido` error —
never a crash and never a normally rendered package. -/
theorem turno_invalido_rejeitado (resposta : String → RespostaItem) (urls : List String)
    (turno : String) (hoje : ℕ) (hturno : turno ∉ ["manha", "tarde", "noite"])
    (hp : carregar_produtos resposta urls ≠ []) :
    gerar_pacote resposta urls turno hoje = .error ⟨400, "Turno inválido: " ++ turno⟩ := by
  have h3 : turno ≠ "manha" ∧ turno ≠ "tarde" ∧ turno ≠ "noite" := by
    refine ⟨?_, ?_, ?_⟩ <;> rintro rfl <;> simp at hturno
  have hsel := selecionar_eq_erro (carregar_produtos resposta urls) turno hoje
    (lookup_nenhum turno h3.1 h3.2.1 h3.2.2)
  have hvazio : (carregar_produtos resposta urls).isEmpty = false := by simpa using hp
  simp [gerar_pacote, hvazio, hsel]

/-- Closed instance of `turno_invalido_rejeitado` at a concrete input. -/
theorem turno_invalido_rejeitado_aplicado :
    carregar_produtos (fun _ => ⟨200, "", some "T", some 5, some "l", some 2⟩) ["u/MLB7"] ≠ [] ∧
      gerar_pacote (fun _ => ⟨200, "", some "T", some 5, some "l", some 2⟩) ["u/MLB7"] "zz" 3 =
        .error ⟨400, "Turno inválido: zz"⟩ :=
  ⟨by decide, turno_invalido_rejeitado _ _ "zz" 3 (by decide) (by decide)⟩

/-- The collection loop distributes over concatenation of URL batches. -/
lemma coletar_append (resposta : String → RespostaItem) :
    ∀ l1 l2 : List String, coletar_produtos resposta (l1 ++ l2) =
      coletar_produtos resposta l1 ++ coletar_produtos resposta l2
  | [], _ => rfl
  | url :: resto, l2 => by
    simp only [List.cons_append, coletar_produtos]
    cases processar_url resposta url <;> simp [coletar_append resposta resto l2]

/-- C5: a per-item failure (unextractable id, non-200 status — anything that
makes the `try` body fail) only omits that item: the batch result equals the
result for the same batch without the failing URL, so every other item is
still fetched, sorted and available downstream. -/
theorem falha_de_item_apenas_omite (resposta : String → RespostaItem)
    (pre post : List String) (ruim : String) (h : processar_url resposta ruim = none) :
    carregar_produtos resposta (pre ++ ruim :: post) =
      carregar_produtos resposta (pre ++ post) := by
  unfold carregar_produtos
  rw [coletar_append, coletar_append]
  congr 2
  simp [coletar_produtos, h]

/-- Closed instance of `falha_de_item_apenas_omite`: the middle URL answers
with a 500 status and is omitted; the two other items survive. -/
theorem falha_de_item_apenas_omite_aplicado :
    processar_url
        (fun item_id => if item_id = "MLB9" then ⟨500, "pane", none, none, none, none⟩
          else ⟨200, "", some "T", some 5, some "l", some 1⟩) "u/MLB9" = none ∧
      carregar_produtos
          (fun item_id => if item_id = "MLB9" then ⟨500, "pane", none, none, none, none⟩
            else ⟨200, "", some "T", some 5, some "l", some 1⟩)
          (["a/MLB1"] ++ "u/MLB9" :: ["b/MLB2"]) =
        carregar_produtos
          (fun item_id => if item_id = "MLB9" then ⟨500, "pane", none, none, none, none⟩
            else ⟨200, "", some "T", some 5, some "l", some 1⟩)
          (["a/MLB1"] ++ ["b/MLB2"]) :=
  ⟨rfl, falha_de_item_apenas_omite _ ["a/MLB1"] ["b/MLB2"] "u/MLB9" rfl⟩

/-- C2 counterexample: six copies of one product make a list whose length is
a multiple of three, yet the very same product is selected both for "manha"
and for "tarde" on the same day, so the two selections are not disjoint. -/
theorem manha_tarde_duplicados_contra :
    (List.replicate 6 (⟨"Oferta", 10, "lo", 3, "MLB8"⟩ : Produto)).length % 3 = 0 ∧
      selecionar_produtos_para_turno (List.replicate 6 ⟨"Oferta", 10, "lo", 3, "MLB8"⟩)
          "manha" 0 = .ok (List.replicate 3 ⟨"Oferta", 10, "lo", 3, "MLB8"⟩) ∧
      selecionar_produtos_para_turno (List.replicate 6 ⟨"Oferta", 10, "lo", 3, "MLB8"⟩)
          "tarde" 0 = .ok (List.replicate 3 ⟨"Oferta", 10, "lo", 3, "MLB8"⟩) ∧
      ¬ (List.replicate 3 (⟨"Oferta", 10, "lo", 3, "MLB8"⟩ : Produto)).Disjoint
          (List.replicate 3 (⟨"Oferta", 10, "lo", 3, "MLB8"⟩ : Produto)) := by
  refine ⟨by decide, by rfl, by rfl, fun h => ?_⟩
  exact h (show (⟨"Oferta", 10, "lo", 3, "MLB8"⟩ : Produto) ∈
    List.replicate 3 (⟨"Oferta", 10, "lo", 3, "MLB8"⟩ : Produto) by decide) (by decide)

/-- A left rotation of a list is a permutation of it. -/
lemma rotacao_perm (l : List Produto) (d : ℕ) : (l.drop d ++ l.take d).Perm l := by
  have h1 : l.take d ++ l.drop d = l := List.take_append_drop d l
  have h2 : (l.drop d ++ l.take d).Perm (l.take d ++ l.drop d) := List.perm_append_comm
  rw [h1] at h2
  exact h2

/-- C2 (amended): for pairwise-distinct candidates whose count is a multiple
of three, the "manha" and "tarde" selections of the same day share no item:
both shifts slice disjoint ranges of the same rotation of the list. -/
theorem manha_tarde_disjuntos (produtos : List Produto) (hoje : ℕ)
    (hnd : produtos.Nodup) (_h3 : produtos.length % 3 = 0) :
    ∃ sm st, selecionar_produtos_para_turno produtos "manha" hoje = .ok sm ∧
      selecionar_produtos_para_turno produtos "tarde" hoje = .ok st ∧
      sm.Disjoint st := by
  have hm := selecionar_eq_ok produtos "manha" hoje [0, 1, 2] lookup_manha
  have ht := selecionar_eq_ok produtos "tarde" hoje [3, 4, 5] lookup_tarde
  set d := if produtos.isEmpty then 0 else hoje % produtos.length with hd
  set rot := produtos.drop d ++ produtos.take d with hrot
  have hperm : rot.Perm produtos := rotacao_perm produtos d
  have hnodup : rot.Nodup := hperm.nodup_iff.mpr hnd
  have hm3 : List.filterMap (fun idx => rot.get? idx) [0, 1, 2] = rot.take 3 := by
    simpa using filterMap_fatia 0 rot
  have ht3 : List.filterMap (fun idx => rot.get? idx) [3, 4, 5] = (rot.drop 3).take 3 := by
    simpa using filterMap_fatia 3 rot
  rw [hm3] at hm
  rw [ht3] at ht
  refine ⟨rot.take 3, (rot.drop 3).take 3, hm, ht, ?_⟩
  have hdisj : List.Disjoint (rot.take 3) (rot.drop 3) :=
    List.disjoint_take_drop hnodup (le_refl 3)
  intro a ha hb
  exact hdisj ha (List.take_subset _ _ hb)

/-- Closed instance of `manha_tarde_disjuntos` at six distinct products. -/
theorem manha_tarde_disjuntos_aplicado :
    ([⟨"A", 1, "l1", 1, "MLB1"⟩, ⟨"B", 2, "l2", 2, "MLB2"⟩, ⟨"C", 3, "l3", 3, "MLB3"⟩,
        ⟨"D", 4, "l4", 4, "MLB4"⟩, ⟨"E", 5, "l5", 5, "MLB5"⟩,
        ⟨"F", 6, "l6", 6, "MLB6"⟩] : List Produto).Nodup ∧
      ([⟨"A", 1, "l1", 1, "MLB1"⟩, ⟨"B", 2, "l2", 2, "MLB2"⟩, ⟨"C", 3, "l3", 3, "MLB3"⟩,
        ⟨"D", 4, "l4", 4, "MLB4"⟩, ⟨"E", 5, "l5", 5, "MLB5"⟩,
        ⟨"F", 6, "l6", 6, "MLB6"⟩] : List Produto).length % 3 = 0 ∧
      ∃ sm st, selecionar_produtos_para_turno
          [⟨"A", 1, "l1", 1, "MLB1"⟩, ⟨"B", 2, "l2", 2, "MLB2"⟩, ⟨"C", 3, "l3", 3, "MLB3"⟩,
            ⟨"D", 4, "l4", 4, "MLB4"⟩, ⟨"E", 5, "l5", 5, "MLB5"⟩,
            ⟨"F", 6, "l6", 6, "MLB6"⟩] "manha" 739000 = .ok sm ∧
        selecionar_produtos_para_turno
          [⟨"A", 1, "l1", 1, "MLB1"⟩, ⟨"B", 2, "l2", 2, "MLB2"⟩, ⟨"C", 3, "l3", 3, "MLB3"⟩,
            ⟨"D", 4, "l4", 4, "MLB4"⟩, ⟨"E", 5, "l5", 5, "MLB5"⟩,
            ⟨"F", 6, "l6", 6, "MLB6"⟩] "tarde" 739000 = .ok st ∧
        sm.Disjoint st :=
  ⟨by decide, by decide, manha_tarde_disjuntos _ 739000 (by decide) (by decide)⟩

/-- The fold of Python's `max(·, key=len)` never shrinks the running best. -/
lemma maior_ge : ∀ (xs : List String) (x : String),
    x.length ≤ (maior_por_tamanho x xs).length
  | [], _ => le_refl _
  | y :: ys, x => by
    show x.length ≤ (maior_por_tamanho (if x.length < y.length then y else x) ys).length
    refine le_trans ?_ (maior_ge ys _)
    by_cases h : x.length < y.length
    · simp only [if_pos h]
      omega
    · simp only [if_neg h]
      exact le_refl _

/-- Python's `max(·, key=len)` keeps the first longest element: the input
splits around the result, with strictly shorter strings before it and no
longer string after it. -/
lemma maior_decomposicao : ∀ (xs : List String) (x : String),
    ∃ l1 l2, x :: xs = l1 ++ maior_por_tamanho x xs :: l2 ∧
      (∀ y ∈ l1, y.length < (maior_por_tamanho x xs).length) ∧
      (∀ y ∈ l2, y.length ≤ (maior_por_tamanho x xs).length)
  | [], x => ⟨[], [], rfl, by simp, by simp⟩
  | y :: ys, x => by
    have hfold : maior_por_tamanho x (y :: ys) =
        maior_por_tamanho (if x.length < y.length then y else x) ys := rfl
    rw [hfold]
    by_cases hxy : x.length < y.length
    · rw [if_pos hxy]
      obtain ⟨l1, l2, heq, hl1, hl2⟩ := maior_decomposicao ys y
      refine ⟨x :: l1, l2, ?_, ?_, hl2⟩
      · rw [List.cons_append, ← heq]
      · intro z hz
        simp only [List.mem_cons] at hz
        rcases hz with h1 | h1
        · rw [h1]
          exact lt_of_lt_of_le hxy (maior_ge ys y)
        · exact hl1 z h1
    · rw [if_neg hxy]
      obtain ⟨l1, l2, heq, hl1, hl2⟩ := maior_decomposicao ys x
      cases l1 with
      | nil =>
        simp only [List.nil_append] at heq
        injection heq with hx hys
        refine ⟨[], y :: ys, ?_, by simp, ?_⟩
        · rw [List.nil_append, ← hx]
        · intro z hz
          simp only [List.mem_cons] at hz
          rcases hz with h1 | h1
          · rw [h1, ← hx]
            omega
          · rw [hys] at h1
            exact hl2 z h1
      | cons w l1' =>
        simp only [List.cons_append] at heq
        injection heq with hxw hys
        have hw : w.length < (maior_por_tamanho x ys).length := hl1 w (by simp)
        refine ⟨x :: y :: l1', l2, ?_, ?_, hl2⟩
        · rw [List.cons_append, List.cons_append, ← hys]
        · intro z hz
          simp only [List.mem_cons] at hz
          rcases hz with h1 | h1 | h1
          · rw [h1]
            have hlen : x.length = w.length := by rw [hxw]
            rw [hlen]
            exact hw
          · have hyx : y.length ≤ x.length := by omega
            rw [hxw] at hyx
            rw [h1]
            exact lt_of_le_of_lt hyx hw
          · exact hl1 z (List.mem_cons_of_mem w h1)

/-- C6: `extrair_id_item` fails with the "no id" `ValueError` exactly when
the scan finds no `MLB\d+` match; otherwise it returns a match of maximal
length, the first among ties; on the spec's example URL with the two ids
MLB123 and MLB4567 it returns the longer "MLB4567". -/
theorem extrair_id_mais_longo (url : String) :
    (findall_mlb url.data = [] →
        extrair_id_item url = .error ("Não foi possível extrair ID MLB da URL: " ++ url)) ∧
      (∀ m ms, findall_mlb url.data = m :: ms →
        ∃ r l1 l2, extrair_id_item url = .ok r ∧ m :: ms = l1 ++ r :: l2 ∧
          (∀ y ∈ l1, y.length < r.length) ∧ (∀ y ∈ l2, y.length ≤ r.length)) ∧
      extrair_id_item "https://x/.../MLB123.../MLB4567" = .ok "MLB4567" := by
  refine ⟨?_, ?_, by rfl⟩
  · intro h
    unfold extrair_id_item
    rw [h]
  · intro m ms h
    obtain ⟨l1, l2, heq, hl1, hl2⟩ := maior_decomposicao ms m
    refine ⟨maior_por_tamanho m ms, l1, l2, ?_, heq, hl1, hl2⟩
    unfold extrair_id_item
    rw [h]

/-- Closed instance of `extrair_id_mais_longo` on a URL with two equally long
ids, checking the first-occurrence tie-break. -/
theorem extrair_id_mais_longo_aplicado :
    ∃ r l1 l2, extrair_id_item "https://x/MLB12aMLB34" = .ok r ∧
      "MLB12" :: ["MLB34"] = l1 ++ r :: l2 ∧
      (∀ y ∈ l1, y.length < r.length) ∧ (∀ y ∈ l2, y.length ≤ r.length) :=
  (extrair_id_mais_longo "https://x/MLB12aMLB34").2.1 "MLB12" ["MLB34"] (by decide)

/-- C7 counterexample: the upstream answers 200 without a `permalink`; the
product built for the id extracted from the source URL carries the empty
link, not the source URL it was loaded from. -/
theorem link_nao_usa_url_fonte_contra :
    extrair_id_item "https://x/MLB123" = .ok "MLB123" ∧
      buscar_detalhes_produto (fun _ => ⟨200, "", some "Tenis", some 10, none, some 2⟩)
          "MLB123" = .ok ⟨"Tenis", 10, "", 2, "MLB123"⟩ ∧
      ("" : String) ≠ "https://x/MLB123" :=
  ⟨rfl, rfl, by decide⟩

/-- C7 (amended): when the 200 response omits the permalink (or carries an
empty one), the product's link is the empty string — the fetcher never sees
the source URL, so no fallback to it exists. -/
theorem link_vazio_sem_permalink (resposta : String → RespostaItem) (item_id : String)
    (hst : (resposta item_id).status = 200)
    (hpl : (resposta item_id).permalink = none ∨ (resposta item_id).permalink = some "") :
    ∃ p, buscar_detalhes_produto resposta item_id = .ok p ∧ p.link = "" := by
  have hred : buscar_detalhes_produto resposta item_id =
      .ok { nome := ou_texto (resposta item_id).title ("Produto " ++ item_id)
            preco := (resposta item_id).price.getD 0
            link := ou_texto (resposta item_id).permalink ""
            vendas := (resposta item_id).sold_quantity.getD 0
            id_item := item_id } := by
    simp [buscar_detalhes_produto, hst]
  refine ⟨_, hred, ?_⟩
  show ou_texto (resposta item_id).permalink "" = ""
  rcases hpl with h | h <;> simp [ou_texto, h]

/-- Closed instance of `link_vazio_sem_permalink` at a concrete input. -/
theorem link_vazio_sem_permalink_aplicado :
    ((fun _ => (⟨200, "", some "T", some 7, none, some 1⟩ : RespostaItem)) "MLB5").status
        = 200 ∧
      ∃ p, buscar_detalhes_produto (fun _ => ⟨200, "", some "T", some 7, none, some 1⟩)
          "MLB5" = .ok p ∧ p.link = "" :=
  ⟨rfl, link_vazio_sem_permalink _ "MLB5" rfl (Or.inl rfl)⟩

set_option maxRecDepth 8000 in
/-- C8 counterexample: `Produto` has no pre-discount price and the renderer
emits the bare `R$ 99,90` price line: no `De R$ 150,00 → Por R$ 99,90` and
not even a `Por R$ 99,90` line occurs in the rendered package. -/
theorem sem_linha_de_por_contra :
    ¬ ("Por R$ 99,90").data <:+:
        (montar_texto_pacote "manha"
          [⟨"Produto Exemplo", Rat.divInt 999 10, "https://x/MLB1", 0, "MLB1"⟩]).data ∧
      ¬ ("De R$ 150,00").data <:+:
        (montar_texto_pacote "manha"
          [⟨"Produto Exemplo", Rat.divInt 999 10, "https://x/MLB1", 0, "MLB1"⟩]).data ∧
      ("R$ 99,90").data <:+:
        (montar_texto_pacote "manha"
          [⟨"Produto Exemplo", Rat.divInt 999 10, "https://x/MLB1", 0, "MLB1"⟩]).data := by
  refine ⟨by decide, by decide, by decide⟩

/-- C8 (amended): each rendered product's block carries the single plain
price line produced by `formatar_preco_brl` (for a price of 99.9 the line
`R$ 99,90`); there is no original-versus-discounted framing because
`Produto` has no pre-discount price field. -/
theorem linha_preco_unica (turno : String) (produtos : List Produto) (p : Produto)
    (h : p ∈ produtos) :
    (formatar_preco_brl p.preco).data <:+: (montar_texto_pacote turno produtos).data := by
  apply mem_infix_juntar
  have hne : produtos.isEmpty = false := by
    cases produtos
    · cases h
    · rfl
  simp only [montar_texto_pacote, hne, Bool.false_eq_true, if_false, List.mem_append,
    List.mem_cons]
  refine Or.inl (Or.inr (List.mem_flatMap.mpr ⟨p, h, ?_⟩))
  simp

/-- Closed instance of `linha_preco_unica` at a concrete input. -/
theorem linha_preco_unica_aplicado :
    (formatar_preco_brl (Produto.preco ⟨"P", Rat.divInt 999 10, "lp", 1, "MLB3"⟩)).data <:+:
      (montar_texto_pacote "noite" [⟨"P", Rat.divInt 999 10, "lp", 1, "MLB3"⟩]).data :=
  linha_preco_unica "noite" _ _ (by decide)

/-- The character-level effect of the three `replace` steps on any character
other than the placeholder `X`: comma and dot are exchanged, everything else
is untouched. -/
def troca_virgula_ponto (c : Char) : Char :=
  if c = ',' then '.' else if c = '.' then ',' else c

/-- On a string without the placeholder `X`, the three `replace` steps act as
the pointwise comma/dot exchange. -/
lemma trocar_map (l : List Char) (h : 'X' ∉ l) :
    trocar_separadores l = l.map troca_virgula_ponto := by
  unfold trocar_separadores replace_um
  rw [List.map_map, List.map_map]
  refine List.map_congr_left ?_
  intro c hc
  have hcx : c ≠ 'X' := fun e => h (e ▸ hc)
  by_cases h1 : c = ','
  · subst h1
    rfl
  · by_cases h2 : c = '.'
    · subst h2
      rfl
    · simp [Function.comp, troca_virgula_ponto, h1, h2, hcx]

lemma digitChar_lt_dez : ∀ d : ℕ, d < 10 → (Nat.digitChar d).isDigit = true := by decide

/-- Every character `Nat.toDigitsCore` adds to the accumulator is a digit. -/
lemma toDigitsCore_digitos :
    ∀ (fuel n : ℕ) (ds : List Char), (∀ c ∈ ds, c.isDigit = true) →
      ∀ c ∈ Nat.toDigitsCore 10 fuel n ds, c.isDigit = true
  | 0, _, _, hds => hds
  | fuel + 1, n, ds, hds => by
    have hd : (Nat.digitChar (n % 10)).isDigit = true :=
      digitChar_lt_dez _ (Nat.mod_lt n (by omega))
    have hcons : ∀ c ∈ Nat.digitChar (n % 10) :: ds, c.isDigit = true := by
      intro c hc
      rcases List.mem_cons.mp hc with h | h
      · rw [h]
        exact hd
      · exact hds c h
    unfold Nat.toDigitsCore
    by_cases h0 : n / 10 = 0
    · simpa [h0] using hcons
    · simpa [h0] using toDigitsCore_digitos fuel (n / 10) _ hcons

lemma toDigits_digitos (n : ℕ) : ∀ c ∈ Nat.toDigits 10 n, c.isDigit = true :=
  toDigitsCore_digitos (n + 1) n [] (by simp)

lemma digito_troca_id (c : Char) (h : c.isDigit = true) : troca_virgula_ponto c = c := by
  have h1 : c ≠ ',' := by
    rintro rfl
    exact absurd h (by decide)
  have h2 : c ≠ '.' := by
    rintro rfl
    exact absurd h (by decide)
  simp [troca_virgula_ponto, h1, h2]

lemma digito_nao_x (c : Char) (h : c.isDigit = true) : c ≠ 'X' := by
  rintro rfl
  exact absurd h (by decide)

/-- Characters of the grouped digit list come from the digits or are the
separator. -/
lemma mem_agrupar_rev (sep : Char) : ∀ (l : List Char) (c : Char),
    c ∈ agrupar_rev sep l → c ∈ l ∨ c = sep
  | [], c, h => absurd h (by simp [agrupar_rev])
  | [_], _, h => Or.inl h
  | [_, _], _, h => Or.inl h
  | [_, _, _], _, h => Or.inl h
  | d1 :: d2 :: d3 :: d4 :: resto, c, h => by
    simp only [agrupar_rev, List.mem_cons] at h
    rcases h with h | h | h | h | h
    · exact Or.inl (by simp [h])
    · exact Or.inl (by simp [h])
    · exact Or.inl (by simp [h])
    · exact Or.inr h
    · rcases mem_agrupar_rev sep (d4 :: resto) c h with h' | h'
      · simp only [List.mem_cons] at h'
        exact Or.inl (by simp only [List.mem_cons]; tauto)
      · exact Or.inr h'

/-- The comma/dot exchange turns comma grouping into dot grouping on digit
lists. -/
lemma map_troca_agrupar : ∀ l : List Char, (∀ c ∈ l, c.isDigit = true) →
    (agrupar_rev ',' l).map troca_virgula_ponto = agrupar_rev '.' l
  | [], _ => rfl
  | [d1], h => by
    simp only [agrupar_rev, List.map_cons, List.map_nil]
    rw [digito_troca_id d1 (h d1 (by simp))]
  | [d1, d2], h => by
    simp only [agrupar_rev, List.map_cons, List.map_nil]
    rw [digito_troca_id d1 (h d1 (by simp)), digito_troca_id d2 (h d2 (by simp))]
  | [d1, d2, d3], h => by
    simp only [agrupar_rev, List.map_cons, List.map_nil]
    rw [digito_troca_id d1 (h d1 (by simp)), digito_troca_id d2 (h d2 (by simp)),
      digito_troca_id d3 (h d3 (by simp))]
  | d1 :: d2 :: d3 :: d4 :: resto, h => by
    simp only [agrupar_rev, List.map_cons]
    rw [digito_troca_id d1 (h d1 (by simp)), digito_troca_id d2 (h d2 (by simp)),
      digito_troca_id d3 (h d3 (by simp)),
      show troca_virgula_ponto ',' = '.' from rfl,
      map_troca_agrupar (d4 :: resto) (fun c hc => h c (by
        simp only [List.mem_cons] at hc ⊢
        tauto))]

lemma map_troca_milhares (ds : List Char) (h : ∀ c ∈ ds, c.isDigit = true) :
    (agrupar_milhares ',' ds).map troca_virgula_ponto = agrupar_milhares '.' ds := by
  unfold agrupar_milhares
  rw [List.map_reverse, map_troca_agrupar ds.reverse (fun c hc => h c (List.mem_reverse.mp hc))]

lemma agrupar_sem_x (ds : List Char) (h : ∀ c ∈ ds, c.isDigit = true) :
    'X' ∉ agrupar_milhares ',' ds := by
  intro hx
  unfold agrupar_milhares at hx
  have hx' : 'X' ∈ agrupar_rev ',' ds.reverse := List.mem_reverse.mp hx
  rcases mem_agrupar_rev ',' ds.reverse 'X' hx' with h' | h'
  · exact digito_nao_x 'X' (h 'X' (List.mem_reverse.mp h')) rfl
  · exact absurd h' (by decide)

lemma data_asString (l : List Char) : l.asString.data = l := rfl

lemma data_mk (l : List Char) : (String.mk l).data = l := rfl

/-- The separator swap leaves a leading minus sign in place. -/
lemma trocar_cons_menos (l : List Char) :
    trocar_separadores ('-' :: l) = '-' :: trocar_separadores l := rfl

/-- The separator swap turns the US two-decimal format into the Brazilian
one: dot-grouped integer part, then a comma and the two cent digits. -/
lemma trocar_formato_us (c : ℕ) :
    trocar_separadores (formato_us_f2 c) =
      agrupar_milhares '.' (Nat.toDigits 10 (c / 100)) ++
        [',', Nat.digitChar (c % 100 / 10), Nat.digitChar (c % 10)] := by
  have hds := toDigits_digitos (c / 100)
  have hd1 : (Nat.digitChar (c % 100 / 10)).isDigit = true :=
    digitChar_lt_dez _ (by omega)
  have hd2 : (Nat.digitChar (c % 10)).isDigit = true :=
    digitChar_lt_dez _ (by omega)
  have hx : 'X' ∉ formato_us_f2 c := by
    unfold formato_us_f2
    intro hmem
    rcases List.mem_append.mp hmem with h | h
    · exact agrupar_sem_x _ hds h
    · simp only [List.mem_cons, List.not_mem_nil, or_false] at h
      rcases h with h | h | h
      · exact absurd h (by decide)
      · exact digito_nao_x _ hd1 h.symm
      · exact digito_nao_x _ hd2 h.symm
  rw [trocar_map _ hx]
  unfold formato_us_f2
  rw [List.map_append]
  congr 1
  · exact map_troca_milhares _ hds
  · simp only [List.map_cons, List.map_nil]
    rw [show troca_virgula_ponto '.' = ',' from rfl, digito_troca_id _ hd1, digito_troca_id _ hd2]

set_option maxRecDepth 8000 in
/-- C9: `formatar_preco_brl` renders every price with exactly two decimals,
a comma as decimal separator and dots as thousands separators — the
Brazilian convention as the spec words it, with no locale input anywhere —
and in particular renders 1234.5 as `R$ 1.234,50`. -/
theorem formatar_preco_brl_brasileiro :
    (∀ v : ℚ, formatar_preco_brl v = preco_brl_especificado v) ∧
      formatar_preco_brl (Rat.divInt 2469 2) = "R$ 1.234,50" := by
  refine ⟨?_, by decide⟩
  intro v
  apply String.ext
  simp only [formatar_preco_brl, preco_brl_especificado, formato_f2]
  by_cases hneg : centavos v < 0
  · have hn : (-(centavos v)).toNat = (centavos v).natAbs := by omega
    rw [if_pos hneg, if_pos hneg, hn, trocar_cons_menos, trocar_formato_us]
    simp [String.data_append, data_asString, data_mk,
      show ("-" : String).data = ['-'] from rfl, show ("," : String).data = [','] from rfl]
  · have hn : (centavos v).toNat = (centavos v).natAbs := by omega
    rw [if_neg hneg, if_neg hneg, hn, trocar_formato_us]
    simp [String.data_append, data_asString, data_mk,
      show ("" : String).data = [] from rfl, show ("," : String).data = [','] from rfl]
